import Mathlib

/-!
Verification development for the requests-html repository
(file src/requests_html.py).

The Python source is shallowly embedded: strings are modelled as Lean
strings (with helper operations on their character lists, so that every
definition evaluates inside the kernel), the render retry loop becomes a
fuel-indexed recursion over an oracle describing the outcome of each
orchestrator attempt, the session/browser lifecycle becomes an explicit
state machine, and the URL routines from Python urllib.parse (an external
collaborator of the repository) are modelled faithfully after CPython's
urlparse / urlunparse / urljoin.
-/

namespace RequestsHTML

/-! ## Character-list string helpers (models of Python str operations) -/

/-- Model of Python single-character str.split: splitting the empty string
gives one empty field, and separators produce empty fields. -/
def chSplit (sep : Char) : List Char → List (List Char)
  | [] => [[]]
  | c :: t =>
    if c == sep then [] :: chSplit sep t
    else
      match chSplit sep t with
      | h :: r => (c :: h) :: r
      | [] => [[c]]

/-- Model of Python sep.join on a list of strings. -/
def chJoin (sep : Char) : List (List Char) → List Char
  | [] => []
  | [x] => x
  | x :: xs => x ++ sep :: chJoin sep xs

/-- Model of Python str.strip() (whitespace stripping at both ends). -/
def chTrim (l : List Char) : List Char :=
  ((l.dropWhile Char.isWhitespace).reverse.dropWhile Char.isWhitespace).reverse

/-- Substring test on character lists: does the needle occur contiguously
inside the haystack?  Model of Python `needle in hay` on str. -/
def subOf (needle : List Char) : List Char → Bool
  | [] => needle.isEmpty
  | c :: t => needle.isPrefixOf (c :: t) || subOf needle t

/-- Model of Python `needle in hay` on strings. -/
def strIn (needle hay : String) : Bool := subOf needle.data hay.data

/-- Model of Python str.startswith for a single candidate. -/
def pyStartsWith (s pre : String) : Bool := pre.data.isPrefixOf s.data

/-- Model of Python str.strip() on strings. -/
def pyStrip (s : String) : String := String.mk (chTrim s.data)

/-- Model of Python str.lower() (ASCII case folding). -/
def pyLower (s : String) : String := String.mk (s.data.map Char.toLower)

/-! ## Render retry loop (HTML.render, src/requests_html.py lines 507-543)

One orchestrator attempt (`self.session.loop.run_until_complete(self._async_render(...))`)
either returns page content, raises a navigation TimeoutError, or raises
some other exception.  The oracle maps the attempt index to its outcome. -/

/-- Outcome of one Render Orchestrator attempt. -/
inductive AttemptOutcome where
  | ok (content : String)
  | exn
  | timeout
deriving DecidableEq

/-- The distinct error conditions observable from `render`.  `nameErr`
models the NameError raised by the exception handler itself: the source
calls `logging.error(...)` but never imports `logging`. -/
inductive RenderError where
  | timeout
  | nameErr
  | maxRetries
deriving DecidableEq

/-- Python truthiness of the `content` variable (None or empty string is
falsy). -/
def truthy : Option String → Bool
  | none => false
  | some s => !s.data.isEmpty

/-- The `for _ in range(retries)` loop of `render`: first argument is the
remaining fuel, then the next attempt index, the current `content`
variable, and the number of orchestrator invocations performed so far.
Returns the loop's outcome together with the total invocation count.
A `TimeoutError` is re-raised; any other exception reaches
`logging.error`, which raises NameError because `logging` is undefined. -/
def renderLoop (oracle : Nat → AttemptOutcome) :
    Nat → Nat → Option String → Nat → Except RenderError (Option String) × Nat
  | 0, _, content, count => (Except.ok content, count)
  | n + 1, i, content, count =>
    if truthy content then (Except.ok content, count)
    else
      match oracle i with
      | AttemptOutcome.timeout => (Except.error RenderError.timeout, count + 1)
      | AttemptOutcome.exn => (Except.error RenderError.nameErr, count + 1)
      | AttemptOutcome.ok s => renderLoop oracle n (i + 1) (some s) (count + 1)

/-- The Document state replaced by a successful render: raw HTML plus the
lazily derived caches of BaseParser.__init__ (lines 76-84). -/
structure DocState where
  url : String
  _html : Option String
  _encoding : Option String
  _lxml : Option Unit
  _pq : Option Unit
deriving DecidableEq

/-- State produced by `HTML(url=self.url, html=content, ...)` followed by
`self.__dict__.update(html.__dict__)` (lines 540-541): same URL, new raw
content, every derived cache reset to None. -/
def htmlInit (url : String) (content : String) : DocState :=
  { url := url, _html := some content, _encoding := none, _lxml := none, _pq := none }

/-- Model of HTML.render: run the retry loop; on falsy final content raise
MaxRetries, otherwise replace the document state in place.  The second
component counts orchestrator invocations. -/
def render (oracle : Nat → AttemptOutcome) (retries : Nat) (st : DocState) :
    Except RenderError DocState × Nat :=
  match renderLoop oracle retries 0 none 0 with
  | (Except.error e, n) => (Except.error e, n)
  | (Except.ok content, n) =>
    match content with
    | some s =>
      if s.data.isEmpty then (Except.error RenderError.maxRetries, n)
      else (Except.ok (htmlInit st.url s), n)
    | none => (Except.error RenderError.maxRetries, n)

/-! ## URL parsing and joining

Model of Python urllib.parse (the repository imports urlparse, urlunparse
and urljoin from it; it is an external collaborator, modelled after the
CPython implementation). -/

/-- Characters allowed inside a URL scheme after the first letter. -/
def schemeChar (c : Char) : Bool :=
  c.isAlpha || c.isDigit || c == '+' || c == '-' || c == '.'

/-- Split a character list at the first occurrence of c, if any. -/
def splitAtFirst (c : Char) (l : List Char) : List Char × Option (List Char) :=
  match l.findIdx? (· == c) with
  | some i => (l.take i, some (l.drop (i + 1)))
  | none => (l, none)

/-- Index of the last occurrence of c in l, if any. -/
def lastIdxOf (c : Char) (l : List Char) : Option Nat :=
  match l.reverse.findIdx? (· == c) with
  | some j => some (l.length - 1 - j)
  | none => none

/-- Parsed components in urllib.parse order:
scheme, netloc, path, params, query, fragment. -/
structure UrlParts where
  scheme : List Char
  netloc : List Char
  path : List Char
  params : List Char
  query : List Char
  fragment : List Char
deriving DecidableEq

/-- Model of urllib.parse.urlsplit with a default scheme: removes unsafe
bytes, detects a scheme (initial ASCII letter followed by scheme
characters, before the first colon), a //netloc, then fragment and
query. -/
def urlsplit (url0 dflt : List Char) : UrlParts :=
  let url := url0.filter (fun c => !(c == '\t') && !(c == '\r') && !(c == '\n'))
  let sr :=
    match url.findIdx? (· == ':') with
    | some i =>
      if decide (0 < i) && (url.take i).all schemeChar &&
          (match url.head? with
           | some c => c.isAlpha
           | none => false) then
        ((url.take i).map Char.toLower, url.drop (i + 1))
      else (dflt, url)
    | none => (dflt, url)
  let scheme := sr.1
  let nr :=
    if ['/', '/'].isPrefixOf sr.2 then
      let rest := sr.2.drop 2
      (rest.takeWhile (fun c => !(c == '/') && !(c == '?') && !(c == '#')),
       rest.dropWhile (fun c => !(c == '/') && !(c == '?') && !(c == '#')))
    else ([], sr.2)
  let netloc := nr.1
  let fr :=
    match splitAtFirst '#' nr.2 with
    | (a, some b) => (a, b)
    | (a, none) => (a, [])
  let qr :=
    match splitAtFirst '?' fr.1 with
    | (a, some b) => (a, b)
    | (a, none) => (a, [])
  { scheme := scheme, netloc := netloc, path := qr.1, params := [],
    query := qr.2, fragment := fr.2 }

/-- Model of urllib.parse._splitparams: split `;params` out of the last
path segment. -/
def splitparams (path : List Char) : List Char × List Char :=
  if path.contains ';' then
    if path.contains '/' then
      match lastIdxOf '/' path with
      | some r =>
        match (path.drop r).findIdx? (· == ';') with
        | some j => (path.take (r + j), path.drop (r + j + 1))
        | none => (path, [])
      | none => (path, [])
    else
      match path.findIdx? (· == ';') with
      | some i => (path.take i, path.drop (i + 1))
      | none => (path, [])
  else (path, [])

/-- Model of urllib.parse.urlparse with a default scheme. -/
def urlparse (url dflt : List Char) : UrlParts :=
  let p := urlsplit url dflt
  let pp := splitparams p.path
  { p with path := pp.1, params := pp.2 }

/-- Model of urllib.parse.urlunparse / urlunsplit. -/
def urlunparse (p : UrlParts) : List Char :=
  let url := if p.params.isEmpty then p.path else p.path ++ ';' :: p.params
  let url :=
    if !p.netloc.isEmpty || ['/', '/'].isPrefixOf url then
      '/' :: '/' :: p.netloc ++
        (match url with
         | [] => []
         | c :: rest => if c == '/' then c :: rest else '/' :: c :: rest)
    else url
  let url := if p.scheme.isEmpty then url else p.scheme ++ ':' :: url
  let url := if p.query.isEmpty then url else url ++ '?' :: p.query
  if p.fragment.isEmpty then url else url ++ '#' :: p.fragment

/-- Schemes that allow relative resolution (urllib.parse.uses_relative). -/
def usesRelative : List (List Char) :=
  ["", "ftp", "http", "gopher", "nntp", "imap", "wais", "file", "https",
   "shttp", "mms", "prospero", "rtsp", "rtspu", "sftp", "svn", "svn+ssh",
   "ws", "wss"].map String.data

/-- Schemes that use a network location (urllib.parse.uses_netloc). -/
def usesNetloc : List (List Char) :=
  ["", "ftp", "http", "gopher", "nntp", "telnet", "imap", "wais", "file",
   "mms", "https", "shttp", "snews", "prospero", "rtsp", "rtspu", "rsync",
   "svn", "svn+ssh", "sftp", "nfs", "git", "git+ssh", "ws",
   "wss"].map String.data

/-- Python slice assignment segments[1:-1] = filter(None, segments[1:-1]). -/
def filterMiddle (l : List (List Char)) : List (List Char) :=
  match l with
  | [] => []
  | a :: rest =>
    match rest.getLast? with
    | none => [a]
    | some z => a :: ((rest.dropLast.filter (fun s => !s.isEmpty)) ++ [z])

/-- Dot-segment resolution loop of urljoin. -/
def resolveSegs (segs : List (List Char)) : List (List Char) :=
  segs.foldl
    (fun acc seg =>
      if seg == "..".data then acc.dropLast
      else if seg == ".".data then acc
      else acc ++ [seg]) []

/-- Model of urllib.parse.urljoin (CPython, RFC 3986 resolution). -/
def urljoin (base url : List Char) : List Char :=
  if base.isEmpty then url
  else if url.isEmpty then base
  else
    let b := urlparse base []
    let u := urlparse url b.scheme
    if !(u.scheme == b.scheme) || !(usesRelative.contains u.scheme) then url
    else if usesNetloc.contains u.scheme && !u.netloc.isEmpty then
      urlunparse u
    else
      let netloc := if usesNetloc.contains u.scheme then b.netloc else u.netloc
      if u.path.isEmpty && u.params.isEmpty then
        let query := if u.query.isEmpty then b.query else u.query
        urlunparse { scheme := u.scheme, netloc := netloc, path := b.path,
                     params := b.params, query := query, fragment := u.fragment }
      else
        let baseParts0 := chSplit '/' b.path
        let baseParts :=
          if !((baseParts0.getLast?.getD []).isEmpty) then baseParts0.dropLast
          else baseParts0
        let segments :=
          if ['/'].isPrefixOf u.path then chSplit '/' u.path
          else filterMiddle (baseParts ++ chSplit '/' u.path)
        let resolved := resolveSegs segments
        let resolved :=
          if segments.getLast? == some ".".data ||
              segments.getLast? == some "..".data then
            resolved ++ [[]]
          else resolved
        let joined := chJoin '/' resolved
        let path := if joined.isEmpty then ['/'] else joined
        urlunparse { scheme := u.scheme, netloc := netloc, path := path,
                     params := u.params, query := u.query, fragment := u.fragment }

/-- String-level wrapper for the urljoin model. -/
def urljoinS (base url : String) : String := String.mk (urljoin base.data url.data)

/-! ## Base-URL and absolute-link resolution
(BaseParser._make_absolute lines 279-295, BaseParser.base_url lines 303-319) -/

/-- The data base_url depends on: the page's own URL and, when a <base>
element exists, its href attribute value (attrs.get('href', '') makes a
missing attribute the empty string). -/
structure PageModel where
  url : String
  baseTag : Option String
deriving DecidableEq

/-- Model of BaseParser.base_url: a nonempty trimmed <base href> wins,
otherwise the page URL with its path cut down to
'/'.join(path.split('/')[:-1]) + '/'. -/
def base_url (p : PageModel) : String :=
  let fallbackBase :=
    let parsed := urlparse p.url.data []
    String.mk (urlunparse
      { parsed with path := chJoin '/' ((chSplit '/' parsed.path).dropLast) ++ ['/'] })
  match p.baseTag with
  | some h =>
    let s := chTrim h.data
    if s.isEmpty then fallbackBase else String.mk s
  | none => fallbackBase

/-- Model of BaseParser._make_absolute: relative links (no netloc) are
joined onto base_url; links with a netloc but no scheme adopt the base's
scheme; anything else is re-unparsed as is. -/
def _make_absolute (p : PageModel) (link : String) : String :=
  let pl := urlparse link.data []
  if pl.netloc.isEmpty then urljoinS (base_url p) link
  else if pl.scheme.isEmpty then
    String.mk (urlunparse { pl with scheme := (urlparse (base_url p).data []).scheme })
  else String.mk (urlunparse pl)

/-- Stated from the spec's words for comparison: the page URL with its
final path segment dropped (path truncated to its directory, a trailing
slash kept). -/
def specDirBase (B : String) : String :=
  let parsed := urlparse B.data []
  String.mk (urlunparse
    { parsed with path := chJoin '/' ((chSplit '/' parsed.path).dropLast) ++ ['/'] })

/-! ## Elements, find, links, next-page selection -/

/-- The slice of an Element the claims depend on: its full text, its href
attribute, and its rel / class attributes already whitespace-split into
token lists (Element.attrs, lines 345-356). -/
structure Elem where
  fullText : String
  href : Option String
  rel : List String
  classes : List String
deriving DecidableEq

/-- Result type of find / xpath: a single optional element when first=True,
a list otherwise. -/
inductive FindResult (α : Type) where
  | single : Option α → FindResult α
  | listing : List α → FindResult α
deriving DecidableEq

/-- Model of the helper _get_first_or_list (lines 617-621):
elements[0] if elements else None, or the whole list. -/
def _get_first_or_list {α : Type} (elements : List α) (first : Bool) : FindResult α :=
  if first then FindResult.single elements.head? else FindResult.listing elements

/-- The containing filter of BaseParser.find (lines 191-195): keep an
element when any of the wanted strings occurs case-insensitively in its
full text. -/
def containsAny (e : Elem) (containing : List String) : Bool :=
  containing.any (fun c => strIn (pyLower c) (pyLower e.fullText))

/-- Model of BaseParser.find over the selector's matches (the CSS engine
is an external collaborator handing back matches in document order). -/
def findList (matched : List Elem) (containing : Option (List String)) : List Elem :=
  match containing with
  | some cs => matched.filter (fun e => containsAny e cs)
  | none => matched

/-- Model of BaseParser.find including the first flag. -/
def find (matched : List Elem) (containing : Option (List String)) (first : Bool) :
    FindResult Elem :=
  _get_first_or_list (findList matched containing) first

/-- Model of the BaseParser.links generator (lines 267-277): strip each
anchor's href, then keep it when truthy, not starting with '#',
'javascript:' or 'mailto:', and passing the redundant skip_anchors test. -/
def links (anchors : List (Option String)) (skip_anchors : Bool) : List String :=
  anchors.filterMap (fun a =>
    let href := pyStrip (a.getD "")
    if !href.data.isEmpty &&
        !(pyStartsWith href "#" || pyStartsWith href "javascript:" ||
          pyStartsWith href "mailto:") &&
        (!pyStartsWith href "#" || !skip_anchors) then
      some href
    else none)

/-- The candidate loop inside HTML.next's find_next (lines 396-406): scan
candidates in document order; `if href:` skips a candidate whose href
attribute is missing or the empty string (Python truthiness), and the
first remaining one satisfying rel contains 'next', or some class token
containing 'next', or 'page' occurring in the href, returns that href. -/
def findNextLoop : List Elem → Option String
  | [] => none
  | c :: rest =>
    match c.href with
    | some href =>
      if href.data.isEmpty then findNextLoop rest
      else if c.rel.contains "next" then some href
      else if c.classes.any (fun cls => strIn "next" cls) then some href
      else if strIn "page" href then some href
      else findNextLoop rest
    | none => findNextLoop rest

/-- Model of find_next (lines 393-407): the loop above, then the fallback
candidates[-1].attrs.get('href') if candidates else None. -/
def find_next (anchors : List Elem) (next_symbol : List String) : Option String :=
  let candidates := findList anchors (some next_symbol)
  match findNextLoop candidates with
  | some h => some h
  | none =>
    match candidates.getLast? with
    | some c => c.href
    | none => none

/-- Model of HTML.next with fetch=False (lines 409-416): a truthy selected
href is made absolute, otherwise None. -/
def nextUrl (p : PageModel) (anchors : List Elem) (next_symbol : List String) :
    Option String :=
  match find_next anchors next_symbol with
  | some h => if h.data.isEmpty then none else some (_make_absolute p h)
  | none => none

/-- Predicate, stated from the code's per-candidate tests, used to
characterise find_next: a candidate hits when it has a truthy (present and
nonempty) href and satisfies any of the rel / class / page conditions. -/
def isHit (c : Elem) : Bool :=
  match c.href with
  | some h =>
    !h.data.isEmpty &&
      (c.rel.contains "next" || c.classes.any (fun cls => strIn "next" cls) ||
        strIn "page" h)
  | none => false

/-! ## Session and browser lifecycle
(BaseSession.browser lines 647-656, HTMLSession.browser lines 665-673,
HTMLSession.close lines 675-679) -/

/-- Session state: the _browser attribute (None models hasattr failing),
a counter supplying fresh handle identities, and the ghost list of
launched-but-not-destroyed handles. -/
structure SessState where
  _browser : Option Nat
  nextId : Nat
  live : List Nat
deriving DecidableEq

/-- A session directly after construction: no browser attribute. -/
def freshSession : SessState := { _browser := none, nextId := 0, live := [] }

/-- Model of the browser property: launch only when no _browser attribute
exists, otherwise return the stored handle. -/
def browser_acquire (s : SessState) : Nat × SessState :=
  match s._browser with
  | some b => (b, s)
  | none =>
    (s.nextId,
     { _browser := some s.nextId, nextId := s.nextId + 1, live := s.live ++ [s.nextId] })

/-- Model of HTMLSession.close: when a browser was launched, destroy it
(count 1); otherwise do nothing browser-related (count 0).  The attribute
itself is not removed, matching the source. -/
def session_close (s : SessState) : Nat × SessState :=
  match s._browser with
  | some b => (1, { s with live := s.live.erase b })
  | none => (0, s)

/-- Operations a caller can perform on the session's browser lifecycle. -/
inductive SessOp where
  | acq
  | close
deriving DecidableEq

/-- One lifecycle step. -/
def sessStep (s : SessState) : SessOp → SessState
  | SessOp.acq => (browser_acquire s).2
  | SessOp.close => (session_close s).2

/-- Run a sequence of lifecycle operations. -/
def sessRun (s : SessState) (ops : List SessOp) : SessState := ops.foldl sessStep s

/-! ## AsyncHTMLSession.run (lines 715-723) -/

/-- Model of AsyncHTMLSession.run: asyncio.wait hands back the settled
tasks in some order described by the index list `order`; run then collects
task.result() for each.  When order is a permutation of all indices this
is the code's `[task.result() for task in done]`. -/
def asyncRun {α : Type} (coros : List α) (order : List Nat) : List α :=
  order.filterMap (fun i => coros[i]?)

/-! ## Lemmas about the render retry loop -/

/-- Once content is truthy the loop stops without invoking the oracle. -/
theorem renderLoop_truthy (oracle : Nat → AttemptOutcome) (n i count : Nat)
    (c : Option String) (h : truthy c = true) :
    renderLoop oracle n i c count = (Except.ok c, count) := by
  cases n <;> simp [renderLoop, h]

/-- If the first k attempts return empty content and attempt k+1 returns
nonempty content, the loop succeeds with that content after exactly k+1
further invocations. -/
theorem renderLoop_success (oracle : Nat → AttemptOutcome) (s : String)
    (hs : s.data.isEmpty = false) :
    ∀ (k n i count : Nat) (c : Option String), truthy c = false →
      (∀ j, j < k → oracle (i + j) = AttemptOutcome.ok "") →
      oracle (i + k) = AttemptOutcome.ok s → k < n →
      renderLoop oracle n i c count = (Except.ok (some s), count + (k + 1)) := by
  intro k
  induction k with
  | zero =>
    intro n i count c hc hpre hk hn
    match n, hn with
    | n + 1, _ =>
      have hi : oracle i = AttemptOutcome.ok s := by simpa using hk
      have ht : truthy (some s) = true := by simp [truthy, hs]
      simp only [renderLoop, hc, Bool.false_eq_true, if_false, hi]
      rw [renderLoop_truthy oracle n (i + 1) (count + 1) (some s) ht]
  | succ k ih =>
    intro n i count c hc hpre hk hn
    match n, hn with
    | n + 1, hn =>
      have h0 : oracle i = AttemptOutcome.ok "" := by
        simpa using hpre 0 (Nat.succ_pos k)
      have hpre2 : ∀ j, j < k → oracle (i + 1 + j) = AttemptOutcome.ok "" := by
        intro j hj
        have := hpre (j + 1) (Nat.succ_lt_succ hj)
        rwa [show i + (j + 1) = i + 1 + j by omega] at this
      have hk2 : oracle (i + 1 + k) = AttemptOutcome.ok s := by
        rwa [show i + (k + 1) = i + 1 + k by omega] at hk
      have hrec := ih n (i + 1) (count + 1) (some "") rfl hpre2 hk2
        (Nat.lt_of_succ_lt_succ hn)
      simp only [renderLoop, hc, Bool.false_eq_true, if_false, h0]
      rw [hrec]
      simp only [Prod.mk.injEq, true_and]
      omega

/-- If every attempt the fuel allows returns empty content, the loop ends
with untruthy content after consuming the whole budget. -/
theorem renderLoop_allEmpty (oracle : Nat → AttemptOutcome) :
    ∀ (n i count : Nat) (c : Option String), truthy c = false →
      (∀ j, j < n → oracle (i + j) = AttemptOutcome.ok "") →
      ∃ c2, truthy c2 = false ∧
        renderLoop oracle n i c count = (Except.ok c2, count + n) := by
  intro n
  induction n with
  | zero =>
    intro i count c hc _
    exact ⟨c, hc, by simp [renderLoop]⟩
  | succ n ih =>
    intro i count c hc hpre
    have h0 : oracle i = AttemptOutcome.ok "" := by
      simpa using hpre 0 (Nat.succ_pos n)
    obtain ⟨c2, hc2, heq⟩ := ih (i + 1) (count + 1) (some "") rfl (fun j hj => by
      have := hpre (j + 1) (Nat.succ_lt_succ hj)
      rwa [show i + (j + 1) = i + 1 + j by omega] at this)
    refine ⟨c2, hc2, ?_⟩
    simp only [renderLoop, hc, Bool.false_eq_true, if_false, h0]
    rw [heq]
    simp only [Prod.mk.injEq, true_and]
    omega

/-- A timeout on an attempt aborts the loop at once: the preceding k
empty attempts plus the timing-out one are the only invocations. -/
theorem renderLoop_timeout (oracle : Nat → AttemptOutcome) :
    ∀ (k n i count : Nat) (c : Option String), truthy c = false →
      (∀ j, j < k → oracle (i + j) = AttemptOutcome.ok "") →
      oracle (i + k) = AttemptOutcome.timeout → k < n →
      renderLoop oracle n i c count = (Except.error RenderError.timeout, count + (k + 1)) := by
  intro k
  induction k with
  | zero =>
    intro n i count c hc hpre hk hn
    match n, hn with
    | n + 1, _ =>
      have hi : oracle i = AttemptOutcome.timeout := by simpa using hk
      simp only [renderLoop, hc, Bool.false_eq_true, if_false, hi]
  | succ k ih =>
    intro n i count c hc hpre hk hn
    match n, hn with
    | n + 1, hn =>
      have h0 : oracle i = AttemptOutcome.ok "" := by
        simpa using hpre 0 (Nat.succ_pos k)
      have hpre2 : ∀ j, j < k → oracle (i + 1 + j) = AttemptOutcome.ok "" := by
        intro j hj
        have := hpre (j + 1) (Nat.succ_lt_succ hj)
        rwa [show i + (j + 1) = i + 1 + j by omega] at this
      have hk2 : oracle (i + 1 + k) = AttemptOutcome.timeout := by
        rwa [show i + (k + 1) = i + 1 + k by omega] at hk
      have hrec := ih n (i + 1) (count + 1) (some "") rfl hpre2 hk2
        (Nat.lt_of_succ_lt_succ hn)
      simp only [renderLoop, hc, Bool.false_eq_true, if_false, h0]
      rw [hrec]
      simp only [Prod.mk.injEq, true_and]
      omega

/-- Converse: when the loop ends with untruthy content, every attempt in
the budget was made and returned empty content. -/
theorem renderLoop_ok_untruthy (oracle : Nat → AttemptOutcome) :
    ∀ (n i count : Nat) (c res : Option String) (m : Nat),
      renderLoop oracle n i c count = (Except.ok res, m) →
      truthy res = false →
      m = count + n ∧ ∀ j, j < n → oracle (i + j) = AttemptOutcome.ok "" := by
  intro n
  induction n with
  | zero =>
    intro i count c res m h hres
    simp only [renderLoop, Prod.mk.injEq, Except.ok.injEq] at h
    exact ⟨by omega, fun j hj => absurd hj (Nat.not_lt_zero j)⟩
  | succ n ih =>
    intro i count c res m h hres
    by_cases hc : truthy c = true
    · rw [renderLoop_truthy oracle (n + 1) i count c hc] at h
      simp only [Prod.mk.injEq, Except.ok.injEq] at h
      rw [← h.1] at hres
      rw [hc] at hres
      exact absurd hres (by simp)
    · have hc2 : truthy c = false := by
        cases hv : truthy c
        · rfl
        · exact absurd hv hc
      simp only [renderLoop, hc2, Bool.false_eq_true, if_false] at h
      cases ho : oracle i with
      | timeout => rw [ho] at h; simp at h
      | exn => rw [ho] at h; simp at h
      | ok s =>
        rw [ho] at h
        replace h : renderLoop oracle n (i + 1) (some s) (count + 1) =
            (Except.ok res, m) := h
        by_cases hs : s.data.isEmpty = true
        · have hse : s = "" := by
            cases s with
            | mk d =>
              cases d with
              | nil => rfl
              | cons a t => simp [List.isEmpty] at hs
          obtain ⟨hm, hall⟩ := ih (i + 1) (count + 1) (some s) res m h hres
          constructor
          · omega
          · intro j hj
            cases j with
            | zero => simpa [hse] using ho
            | succ j =>
              have := hall j (Nat.lt_of_succ_lt_succ hj)
              rwa [show i + 1 + j = i + (j + 1) by omega] at this
        · have ht : truthy (some s) = true := by simp [truthy]; simpa using hs
          rw [renderLoop_truthy oracle n (i + 1) (count + 1) (some s) ht] at h
          simp only [Prod.mk.injEq, Except.ok.injEq] at h
          rw [← h.1] at hres
          rw [ht] at hres
          exact absurd hres (by simp)

/-- When the loop ends with truthy content, that content was produced by
some oracle invocation. -/
theorem renderLoop_ok_origin (oracle : Nat → AttemptOutcome) :
    ∀ (n i count : Nat) (c res : Option String) (m : Nat),
      renderLoop oracle n i c count = (Except.ok res, m) →
      truthy res = true → truthy c = false →
      ∃ j s, res = some s ∧ oracle (i + j) = AttemptOutcome.ok s := by
  intro n
  induction n with
  | zero =>
    intro i count c res m h hres hc
    simp only [renderLoop, Prod.mk.injEq, Except.ok.injEq] at h
    rw [← h.1] at hres
    rw [hres] at hc
    exact absurd hc (by simp)
  | succ n ih =>
    intro i count c res m h hres hc
    simp only [renderLoop, hc, Bool.false_eq_true, if_false] at h
    cases ho : oracle i with
    | timeout => rw [ho] at h; simp at h
    | exn => rw [ho] at h; simp at h
    | ok s =>
      rw [ho] at h
      replace h : renderLoop oracle n (i + 1) (some s) (count + 1) =
          (Except.ok res, m) := h
      by_cases ht : truthy (some s) = true
      · rw [renderLoop_truthy oracle n (i + 1) (count + 1) (some s) ht] at h
        simp only [Prod.mk.injEq, Except.ok.injEq] at h
        exact ⟨0, s, by rw [← h.1], by simpa using ho⟩
      · have ht2 : truthy (some s) = false := by
          cases hv : truthy (some s)
          · rfl
          · exact absurd hv ht
        obtain ⟨j, s2, hr, hj⟩ := ih (i + 1) (count + 1) (some s) res m h hres ht2
        exact ⟨j + 1, s2, hr, by rwa [show i + (j + 1) = i + 1 + j by omega]⟩

/-- The loop itself only ever raises the timeout or NameError conditions;
MaxRetries comes solely from the post-loop content check. -/
theorem renderLoop_error (oracle : Nat → AttemptOutcome) :
    ∀ (n i count : Nat) (c : Option String) (e : RenderError) (m : Nat),
      renderLoop oracle n i c count = (Except.error e, m) →
      e = RenderError.timeout ∨ e = RenderError.nameErr := by
  intro n
  induction n with
  | zero =>
    intro i count c e m h
    simp [renderLoop] at h
  | succ n ih =>
    intro i count c e m h
    by_cases hc : truthy c = true
    · rw [renderLoop_truthy oracle (n + 1) i count c hc] at h
      simp at h
    · have hc2 : truthy c = false := by
        cases hv : truthy c
        · rfl
        · exact absurd hv hc
      simp only [renderLoop, hc2, Bool.false_eq_true, if_false] at h
      cases ho : oracle i with
      | timeout =>
        rw [ho] at h
        simp only [Prod.mk.injEq, Except.error.injEq] at h
        exact Or.inl h.1.symm
      | exn =>
        rw [ho] at h
        simp only [Prod.mk.injEq, Except.error.injEq] at h
        exact Or.inr h.1.symm
      | ok s =>
        rw [ho] at h
        exact ih (i + 1) (count + 1) (some s) e m h

/-! ## Concrete oracles and states used by witnesses -/

/-- A document state before rendering. -/
def st0 : DocState :=
  { url := "https://example.org/", _html := none, _encoding := none,
    _lxml := none, _pq := none }

/-- Orchestrator producing empty content on attempt 1 and real content on
attempt 2. -/
def ex2Oracle : Nat → AttemptOutcome := fun i =>
  if i = 0 then AttemptOutcome.ok "" else AttemptOutcome.ok "<p>done</p>"

/-- Orchestrator timing out on every attempt. -/
def timeoutOracle : Nat → AttemptOutcome := fun _ => AttemptOutcome.timeout

/-- Orchestrator raising a non-timeout exception on every attempt. -/
def exnOracle : Nat → AttemptOutcome := fun _ => AttemptOutcome.exn

/-- Orchestrator returning empty content on every attempt. -/
def allEmptyOracle : Nat → AttemptOutcome := fun _ => AttemptOutcome.ok ""

/-- Orchestrator succeeding immediately. -/
def okOracle : Nat → AttemptOutcome := fun _ => AttemptOutcome.ok "<html>x</html>"

/-! ## Claim theorems about the render retry loop -/

/-- C2: with a retries budget r ≥ 1 and an orchestrator returning empty
content on its first k-1 attempts and nonempty content s on attempt k
(k ≤ r), render performs exactly k orchestrator invocations, succeeds, and
installs the content produced on attempt k; once nonempty content exists
the loop never invokes the orchestrator again. -/
theorem render_retry_succeeds_at_k (oracle : Nat → AttemptOutcome)
    (r k : Nat) (s : String) (st : DocState)
    (hk1 : 1 ≤ k) (hkr : k ≤ r)
    (hpre : ∀ j, j < k - 1 → oracle j = AttemptOutcome.ok "")
    (hk : oracle (k - 1) = AttemptOutcome.ok s)
    (hs : s.data.isEmpty = false) :
    render oracle r st = (Except.ok (htmlInit st.url s), k) := by
  have hloop := renderLoop_success oracle s hs (k - 1) r 0 0 none rfl
    (fun j hj => by simpa using hpre j hj)
    (by simpa using hk) (by omega)
  unfold render
  rw [hloop]
  simp only [hs, Bool.false_eq_true, if_false, Prod.mk.injEq, Except.ok.injEq,
    true_and]
  omega

/-- Witness for C2 at r = 3, k = 2. -/
theorem render_retry_succeeds_at_k_witness :
    render ex2Oracle 3 st0 = (Except.ok (htmlInit st0.url "<p>done</p>"), 2) :=
  render_retry_succeeds_at_k ex2Oracle 3 2 "<p>done</p>" st0 (by omega) (by omega)
    (fun j hj => by
      have hj0 : j = 0 := by omega
      rw [hj0]
      rfl)
    rfl rfl

/-- C3 (code bug): the timeout half of the claim holds — a navigation
timeout on attempt k+1 propagates at once, with the k preceding empty
attempts plus the timing-out one as the only invocations — but the other
half fails: a non-timeout per-attempt exception is not logged and counted
against the budget, because the handler's own `logging.error` call raises
NameError (`logging` is never imported), shown here aborting an 8-retry
render after a single attempt. -/
theorem render_timeout_aborts_and_exn_crashes :
    (∀ (oracle : Nat → AttemptOutcome) (r k : Nat) (st : DocState),
      (∀ j, j < k → oracle j = AttemptOutcome.ok "") →
      oracle k = AttemptOutcome.timeout → k < r →
      render oracle r st = (Except.error RenderError.timeout, k + 1)) ∧
    render exnOracle 8 st0 = (Except.error RenderError.nameErr, 1) := by
  constructor
  · intro oracle r k st hpre hk hkr
    have hloop := renderLoop_timeout oracle k r 0 0 none rfl
      (fun j hj => by simpa using hpre j hj)
      (by simpa using hk) hkr
    unfold render
    rw [hloop]
    simp only [Prod.mk.injEq, true_and]
    omega
  · rfl

/-- Witness for C3's quantified part: a timeout on attempt 1 of an
8-retry budget aborts after exactly one invocation. -/
theorem render_timeout_aborts_and_exn_crashes_witness :
    render timeoutOracle 8 st0 = (Except.error RenderError.timeout, 1) :=
  render_timeout_aborts_and_exn_crashes.1 timeoutOracle 8 0 st0
    (fun j hj => absurd hj (Nat.not_lt_zero j)) rfl (by omega)

/-- C5: render raises MaxRetries exactly when every one of the retries
attempts was performed and returned empty content (in particular none
timed out); on success the condition is never observed. -/
theorem render_max_retries_iff (oracle : Nat → AttemptOutcome) (r n : Nat)
    (st : DocState) :
    render oracle r st = (Except.error RenderError.maxRetries, n) ↔
      (n = r ∧ ∀ i, i < r → oracle i = AttemptOutcome.ok "") := by
  constructor
  · intro h
    unfold render at h
    cases hl : renderLoop oracle r 0 none 0 with
    | mk res m =>
      rw [hl] at h
      cases res with
      | error e =>
        simp only [Prod.mk.injEq, Except.error.injEq] at h
        rcases renderLoop_error oracle r 0 0 none e m hl with he | he <;>
          rw [he] at h <;> exact absurd h.1 (by simp)
      | ok content =>
        cases content with
        | none =>
          simp only [Prod.mk.injEq, Except.error.injEq, true_and] at h
          obtain ⟨hm, hall⟩ :=
            renderLoop_ok_untruthy oracle r 0 0 none none m hl rfl
          exact ⟨by omega, fun i hi => by simpa using hall i hi⟩
        | some s =>
          by_cases hs : s.data.isEmpty = true
          · simp only [hs, if_true, Prod.mk.injEq, Except.error.injEq,
              true_and] at h
            obtain ⟨hm, hall⟩ :=
              renderLoop_ok_untruthy oracle r 0 0 none (some s) m hl
                (by simp [truthy, hs])
            exact ⟨by omega, fun i hi => by simpa using hall i hi⟩
          · simp only [hs, Bool.false_eq_true, if_false, Prod.mk.injEq] at h
            exact absurd h.1 (by simp)
  · rintro ⟨hn, hall⟩
    obtain ⟨c2, hc2, heq⟩ := renderLoop_allEmpty oracle r 0 0 none rfl
      (fun j hj => by simpa using hall j hj)
    unfold render
    rw [hn, heq]
    cases c2 with
    | none => simp
    | some s =>
      have hs : s.data.isEmpty = true := by simpa [truthy] using hc2
      simp [hs]

/-- Witness for C5: three all-empty attempts with a budget of three raise
MaxRetries after exactly three invocations. -/
theorem render_max_retries_iff_witness :
    render allEmptyOracle 3 st0 = (Except.error RenderError.maxRetries, 3) :=
  (render_max_retries_iff allEmptyOracle 3 3 st0).mpr
    ⟨rfl, fun _ _ => rfl⟩

/-- C6: a successful render replaces the document state in place — the
resulting state keeps the page's URL, carries the nonempty content some
orchestrator attempt produced as its raw HTML, and has every derived
cache (encoding, lxml tree, PyQuery handle) reset for recomputation. -/
theorem render_replaces_in_place (oracle : Nat → AttemptOutcome) (r : Nat)
    (st st2 : DocState) (n : Nat)
    (h : render oracle r st = (Except.ok st2, n)) :
    st2.url = st.url ∧ st2._encoding = none ∧ st2._lxml = none ∧
      st2._pq = none ∧
      ∃ s, st2._html = some s ∧ s.data.isEmpty = false ∧
        st2 = htmlInit st.url s ∧ ∃ j, oracle j = AttemptOutcome.ok s := by
  unfold render at h
  cases hl : renderLoop oracle r 0 none 0 with
  | mk res m =>
    rw [hl] at h
    cases res with
    | error e => simp at h
    | ok content =>
      cases content with
      | none => simp at h
      | some s =>
        by_cases hs : s.data.isEmpty = true
        · simp [hs] at h
        · simp only [hs, Bool.false_eq_true, if_false, Prod.mk.injEq,
            Except.ok.injEq] at h
          obtain ⟨h1, h2⟩ := h
          obtain ⟨j, s2, hr, ho⟩ :=
            renderLoop_ok_origin oracle r 0 0 none (some s) m hl
              (by simp [truthy]; simpa using hs) rfl
          have hs2 : s2 = s := by
            injection hr with hr2
            exact hr2.symm
          rw [← h1]
          refine ⟨rfl, rfl, rfl, rfl, s, rfl, by simpa using hs, rfl,
            j, ?_⟩
          rw [← hs2]
          simpa using ho

/-- Witness for C6: a render succeeding on the first attempt. -/
theorem render_replaces_in_place_witness :
    (htmlInit st0.url "<html>x</html>").url = st0.url ∧
    (htmlInit st0.url "<html>x</html>")._encoding = none ∧
    (htmlInit st0.url "<html>x</html>")._lxml = none ∧
    (htmlInit st0.url "<html>x</html>")._pq = none ∧
    ∃ s, (htmlInit st0.url "<html>x</html>")._html = some s ∧
      s.data.isEmpty = false ∧
      htmlInit st0.url "<html>x</html>" = htmlInit st0.url s ∧
      ∃ j, okOracle j = AttemptOutcome.ok s :=
  render_replaces_in_place okOracle 8 st0
    (htmlInit st0.url "<html>x</html>") 1 rfl

/-! ## Browser lifecycle invariant (C7) -/

/-- Reachable-state invariant of a session's browser lifecycle: either no
browser attribute and nothing live, or a stored handle that is the only
live one (or already destroyed by close, which keeps the attribute). -/
def sessInv (s : SessState) : Prop :=
  (s._browser = none ∧ s.live = []) ∨
    ∃ b, s._browser = some b ∧ (s.live = [b] ∨ s.live = [])

/-- The invariant is preserved by acquire and close. -/
theorem sessInv_step (s : SessState) (op : SessOp) (h : sessInv s) :
    sessInv (sessStep s op) := by
  cases op with
  | acq =>
    rcases h with ⟨hb, hl⟩ | ⟨b, hb, hl⟩
    · exact Or.inr ⟨s.nextId, by simp [sessStep, browser_acquire, hb, hl]⟩
    · exact Or.inr ⟨b, by simp [sessStep, browser_acquire, hb], by
        simpa [sessStep, browser_acquire, hb] using hl⟩
  | close =>
    rcases h with ⟨hb, hl⟩ | ⟨b, hb, hl⟩
    · exact Or.inl ⟨by simp [sessStep, session_close, hb], by
        simp [sessStep, session_close, hb, hl]⟩
    · refine Or.inr ⟨b, by simp [sessStep, session_close, hb], Or.inr ?_⟩
      rcases hl with hl | hl <;> simp [sessStep, session_close, hb, hl]

/-- The invariant holds in every state reachable from a state satisfying
it. -/
theorem sessInv_run (ops : List SessOp) :
    ∀ s : SessState, sessInv s → sessInv (sessRun s ops) := by
  induction ops with
  | nil => intro s h; exact h
  | cons op rest ih =>
    intro s h
    exact ih (sessStep s op) (sessInv_step s op h)

/-- C7: at most one live browser handle per session. Any operation
sequence from a fresh session leaves at most one live handle; acquiring
after an acquire returns the identical handle without changing state;
closing a fresh session destroys no handle; closing right after the first
acquire destroys exactly one. -/
theorem browser_singleton :
    (∀ ops : List SessOp, (sessRun freshSession ops).live.length ≤ 1) ∧
    (∀ (s : SessState) (h : Nat) (s2 : SessState),
      browser_acquire s = (h, s2) → browser_acquire s2 = (h, s2)) ∧
    (session_close freshSession).1 = 0 ∧
    (∀ s : SessState, s._browser = none →
      (session_close (browser_acquire s).2).1 = 1) := by
  refine ⟨?_, ?_, rfl, ?_⟩
  · intro ops
    have hinv := sessInv_run ops freshSession (Or.inl ⟨rfl, rfl⟩)
    rcases hinv with ⟨_, hl⟩ | ⟨b, _, hl | hl⟩ <;> simp [hl]
  · intro s h s2 hacq
    cases hb : s._browser with
    | some b =>
      unfold browser_acquire at hacq
      rw [hb] at hacq
      obtain ⟨rfl, rfl⟩ : b = h ∧ s = s2 := by
        simpa using hacq
      simp [browser_acquire, hb]
    | none =>
      unfold browser_acquire at hacq
      rw [hb] at hacq
      obtain ⟨rfl, rfl⟩ : s.nextId = h ∧
          ({ _browser := some s.nextId, nextId := s.nextId + 1,
             live := s.live ++ [s.nextId] } : SessState) = s2 := by
        simpa using hacq
      simp [browser_acquire]
  · intro s hb
    simp [browser_acquire, session_close, hb]

/-- Witness for C7 at concrete inputs. -/
theorem browser_singleton_witness :
    (sessRun freshSession [SessOp.acq, SessOp.acq, SessOp.close]).live.length ≤ 1 ∧
    browser_acquire (SessState.mk (some 0) 1 [0]) = (0, SessState.mk (some 0) 1 [0]) ∧
    (session_close (browser_acquire freshSession).2).1 = 1 :=
  ⟨browser_singleton.1 [SessOp.acq, SessOp.acq, SessOp.close],
   browser_singleton.2.1 freshSession 0 (SessState.mk (some 0) 1 [0]) rfl,
   browser_singleton.2.2.2 freshSession rfl⟩

/-! ## AsyncHTMLSession.run (C8) -/

/-- Collecting every index of a list through its optional indexing
function returns the list itself. -/
theorem filterMap_index_range {α : Type} (l : List α) :
    (List.range l.length).filterMap (fun i => l[i]?) = l := by
  induction l with
  | nil => rfl
  | cons a t ih =>
    rw [List.length_cons, List.range_succ_eq_map, List.filterMap_cons]
    simp only [List.getElem?_cons_zero, List.filterMap_map]
    have hcomp : ((fun i => (a :: t)[i]?) ∘ Nat.succ) = fun i => t[i]? := by
      funext i
      simp
    rw [hcomp, ih]

/-- C8: whatever settle order asyncio.wait reports (any permutation of
the task indices), run returns exactly N results, one per submitted
coroutine, multiset-equal to the submitted tasks' results. -/
theorem run_returns_all_results {α : Type} (coros : List α) (order : List Nat)
    (h : order.Perm (List.range coros.length)) :
    (asyncRun coros order).length = coros.length ∧
      (asyncRun coros order).Perm coros := by
  have hperm : (asyncRun coros order).Perm coros := by
    have h2 := List.Perm.filterMap (fun i => coros[i]?) h
    rwa [filterMap_index_range coros] at h2
  exact ⟨hperm.length_eq, hperm⟩

/-- Witness for C8: three requests settling in the order 2, 0, 1. -/
theorem run_returns_all_results_witness :
    (asyncRun ["u1", "u2", "u3"] [2, 0, 1]).length = 3 ∧
      (asyncRun ["u1", "u2", "u3"] [2, 0, 1]).Perm ["u1", "u2", "u3"] := by
  have h := run_returns_all_results ["u1", "u2", "u3"] [2, 0, 1] (by decide)
  exact ⟨h.1, h.2⟩

/-! ## links (C9) -/

/-- C9: every member of the links set is nonempty and starts with none of
'#', 'javascript:' and 'mailto:' — anchors with missing, empty,
fragment-only, javascript: or mailto: hrefs never contribute. -/
theorem links_wellformed (anchors : List (Option String)) (skip : Bool)
    (s : String) (hmem : s ∈ links anchors skip) :
    s.data ≠ [] ∧ pyStartsWith s "#" = false ∧
      pyStartsWith s "javascript:" = false ∧
      pyStartsWith s "mailto:" = false := by
  unfold links at hmem
  rw [List.mem_filterMap] at hmem
  obtain ⟨a, _, ha⟩ := hmem
  dsimp only at ha
  split at ha
  case isTrue hcond =>
    obtain rfl : pyStrip (a.getD "") = s := by
      injection ha
    rw [Bool.and_eq_true] at hcond
    obtain ⟨hxy, -⟩ := hcond
    rw [Bool.and_eq_true] at hxy
    obtain ⟨hx, hy⟩ := hxy
    rw [Bool.not_eq_true'] at hx
    rw [Bool.not_eq_true'] at hy
    rw [Bool.or_eq_false_iff, Bool.or_eq_false_iff] at hy
    obtain ⟨⟨h1, h2⟩, h3⟩ := hy
    refine ⟨?_, h1, h2, h3⟩
    intro hnil
    rw [List.isEmpty_iff.mpr hnil] at hx
    exact absurd hx (by simp)
  case isFalse => exact absurd ha (by simp)

/-- Witness for C9 on a concrete anchor list. -/
theorem links_wellformed_witness :
    "a.html".data ≠ [] ∧ pyStartsWith "a.html" "#" = false ∧
      pyStartsWith "a.html" "javascript:" = false ∧
      pyStartsWith "a.html" "mailto:" = false :=
  links_wellformed
    [some " a.html ", some "#top", none, some "javascript:void(0)",
     some "mailto:x@y", some "   "]
    true "a.html" (by decide)

/-! ## find / first (C10) -/

/-- C10: find with first=True returns None on zero matches and the first
match in document order otherwise; with first=False it returns the whole
(possibly empty) list. -/
theorem find_first_behavior (matched : List Elem) :
    (matched = [] → find matched none true = FindResult.single none) ∧
    (∀ x xs, matched = x :: xs →
      find matched none true = FindResult.single (some x)) ∧
    find matched none false = FindResult.listing matched := by
  refine ⟨?_, ?_, rfl⟩
  · intro h
    rw [h]
    rfl
  · intro x xs h
    rw [h]
    rfl

/-- An anchor element used by concrete statements. -/
def elemA : Elem :=
  { fullText := "Next page", href := some "a.html", rel := [], classes := [] }

/-- A second anchor element used by concrete statements. -/
def elemB : Elem :=
  { fullText := "previous page", href := some "b.html", rel := [], classes := [] }

/-- Witness for C10 on concrete match lists. -/
theorem find_first_behavior_witness :
    find ([] : List Elem) none true = FindResult.single none ∧
    find [elemA, elemB] none true = FindResult.single (some elemA) ∧
    find [elemA, elemB] none false = FindResult.listing [elemA, elemB] :=
  ⟨(find_first_behavior []).1 rfl,
   (find_first_behavior [elemA, elemB]).2.1 elemA [elemB] rfl,
   (find_first_behavior [elemA, elemB]).2.2⟩

/-! ## Next-page selection (C1) -/

/-- The candidate loop equals: find the first candidate hitting any of the
three per-candidate tests, and return its href. -/
theorem findNextLoop_eq_find (cs : List Elem) :
    findNextLoop cs = (cs.find? isHit).bind Elem.href := by
  induction cs with
  | nil => rfl
  | cons c rest ih =>
    unfold findNextLoop
    rw [List.find?_cons]
    cases hh : c.href with
    | none =>
      have hhit : isHit c = false := by
        unfold isHit
        rw [hh]
      rw [hhit]
      exact ih
    | some h =>
      have hhit : isHit c = (!h.data.isEmpty &&
          (c.rel.contains "next" || c.classes.any (fun cls => strIn "next" cls) ||
            strIn "page" h)) := by
        unfold isHit
        rw [hh]
      cases hE : h.data.isEmpty <;>
        cases hA : c.rel.contains "next" <;>
          cases hB : c.classes.any (fun cls => strIn "next" cls) <;>
            cases hC : strIn "page" h <;>
              rw [hE, hA, hB, hC] at hhit <;>
                simp only [Bool.false_or, Bool.or_false, Bool.true_or,
                  Bool.or_true, Bool.not_true, Bool.not_false, Bool.true_and,
                  Bool.false_and, Bool.and_true, Bool.and_false] at hhit <;>
                  rw [hhit] <;> simp [hE, hA, hB, hC, hh, ih]

/-- C1 (amended): find_next scans the candidates (anchors whose text
contains a marker, case-insensitively) in document order and returns the
href of the first one whose href attribute is present and nonempty and
that satisfies any of the three tests — rel containing "next", a class
token containing "next", or "page" occurring in the href; a candidate
with a missing or empty href is skipped without testing.  When no
candidate passes a test it falls back to the last candidate's href
attribute (None when that is absent or there are no candidates).  The
spec's three-candidate rel=next example follows whenever the third
candidate's href is nonempty and the two earlier candidates pass none of
the tests. -/
theorem find_next_characterization :
    (∀ (anchors : List Elem) (markers : List String),
      find_next anchors markers =
        match (findList anchors (some markers)).find? isHit with
        | some c => c.href
        | none => ((findList anchors (some markers)).getLast?).bind Elem.href) ∧
    (∀ (c1 c2 c3 : Elem) (h : String) (markers : List String),
      findList [c1, c2, c3] (some markers) = [c1, c2, c3] →
      isHit c1 = false → isHit c2 = false →
      c3.rel.contains "next" = true → c3.href = some h →
      h.data.isEmpty = false →
      find_next [c1, c2, c3] markers = some h) := by
  constructor
  · intro anchors markers
    unfold find_next
    dsimp only
    rw [findNextLoop_eq_find]
    cases hf : (findList anchors (some markers)).find? isHit with
    | none =>
      cases (findList anchors (some markers)).getLast? <;> simp
    | some c =>
      have hc := List.find?_some hf
      cases hh : c.href with
      | none =>
        have hhit : isHit c = false := by
          unfold isHit
          rw [hh]
        rw [hhit] at hc
        exact absurd hc (by simp)
      | some h => simp [hh]
  · intro c1 c2 c3 h markers hfl h1 h2 h3 hh hne
    have hthree : isHit c3 = (!h.data.isEmpty &&
        (c3.rel.contains "next" || c3.classes.any (fun cls => strIn "next" cls) ||
          strIn "page" h)) := by
      unfold isHit
      rw [hh]
    have hhit3 : isHit c3 = true := by
      rw [hthree, h3, hne]
      simp
    unfold find_next
    dsimp only
    rw [hfl, findNextLoop_eq_find]
    rw [List.find?_cons, h1, List.find?_cons, h2, List.find?_cons, hhit3]
    simp [hh]

/-- First counterexample candidate: an anchor whose href contains "page". -/
def cexA : Elem :=
  { fullText := "more first", href := some "http://e.com/page1.html",
    rel := [], classes := [] }

/-- Second counterexample candidate: a plain anchor. -/
def cexB : Elem :=
  { fullText := "more second", href := some "http://e.com/a.html",
    rel := [], classes := [] }

/-- Third counterexample candidate: the only one carrying rel=next. -/
def cexC : Elem :=
  { fullText := "more third", href := some "http://e.com/b.html",
    rel := ["next"], classes := [] }

/-- The page the counterexample runs on. -/
def cexPage : PageModel := { url := "http://e.com/", baseTag := none }

/-- C1 counterexample: all three anchors are candidates and only the
third carries rel=next, yet next() returns the first candidate's href
(it contains "page"), not the third's — the rel test does not take global
priority over the href test of an earlier candidate. -/
theorem next_priority_counterexample :
    findList [cexA, cexB, cexC] (some ["more"]) = [cexA, cexB, cexC] ∧
    cexA.rel = [] ∧ cexB.rel = [] ∧ cexC.rel = ["next"] ∧
    nextUrl cexPage [cexA, cexB, cexC] ["more"] =
      some "http://e.com/page1.html" ∧
    ("http://e.com/page1.html" : String) ≠ "http://e.com/b.html" := by
  refine ⟨by decide, rfl, rfl, rfl, by decide, by decide⟩

/-- First witness candidate: no test applies. -/
def witA : Elem :=
  { fullText := "older one", href := some "http://e.com/x.html",
    rel := [], classes := [] }

/-- Second witness candidate: no test applies. -/
def witB : Elem :=
  { fullText := "older two", href := some "http://e.com/y.html",
    rel := [], classes := [] }

/-- Third witness candidate: carries rel=next. -/
def witC : Elem :=
  { fullText := "older three", href := some "http://e.com/b.html",
    rel := ["next"], classes := [] }

/-- A candidate whose href attribute is present but empty: the code's
`if href:` guard skips it even though it carries rel=next. -/
def witEmptyHref : Elem :=
  { fullText := "more a", href := some "", rel := ["next"], classes := [] }

/-- A candidate passing no test, reached only through the fallback. -/
def witFallback : Elem :=
  { fullText := "more b", href := some "http://e.com/real.html",
    rel := [], classes := [] }

/-- Witness for the amended C1: with the earlier candidates passing no
test, the rel=next candidate's nonempty href is selected; and an
empty-href rel=next candidate is skipped without testing, so the
fallback returns the last candidate's href. -/
theorem find_next_characterization_witness :
    find_next [witA, witB, witC] ["older"] = some "http://e.com/b.html" ∧
    find_next [witEmptyHref, witFallback] ["more"] =
      some "http://e.com/real.html" :=
  ⟨find_next_characterization.2 witA witB witC "http://e.com/b.html" ["older"]
    (by decide) (by decide) (by decide) (by decide) (by decide) (by decide),
   by decide⟩

/-! ## Base-URL / absolute-link resolution (C4) -/

/-- A present base tag whose trimmed href is nonempty is the base,
whatever the page URL. -/
theorem base_url_of_baseTag (B h : String) (hne : chTrim h.data ≠ []) :
    base_url ⟨B, some h⟩ = String.mk (chTrim h.data) := by
  have hb : (chTrim h.data).isEmpty = false := by
    cases he : (chTrim h.data).isEmpty
    · rfl
    · exact absurd (List.isEmpty_iff.mp he) hne
  unfold base_url
  dsimp only
  rw [hb]
  simp

/-- The absolute-link routine depends on the page only through its
base URL. -/
theorem make_absolute_congr (p q : PageModel) (link : String)
    (h : base_url p = base_url q) :
    _make_absolute p link = _make_absolute q link := by
  unfold _make_absolute
  rw [h]

/-- C4: without a base tag, a link without an authority component resolves
to the urljoin of the directory-truncated page URL and the link; a
nonempty trimmed base-tag href is the base and makes resolution
independent of the page URL; a link with an authority but no scheme is
re-unparsed with the base's scheme adopted. -/
theorem make_absolute_resolution :
    (∀ B L : String, (urlparse L.data []).netloc = [] →
      _make_absolute ⟨B, none⟩ L = urljoinS (specDirBase B) L) ∧
    (∀ B h : String, chTrim h.data ≠ [] →
      base_url ⟨B, some h⟩ = String.mk (chTrim h.data)) ∧
    (∀ B B2 h L : String, chTrim h.data ≠ [] →
      _make_absolute ⟨B, some h⟩ L = _make_absolute ⟨B2, some h⟩ L) ∧
    (∀ (p : PageModel) (L : String),
      (urlparse L.data []).netloc ≠ [] → (urlparse L.data []).scheme = [] →
      _make_absolute p L =
        String.mk (urlunparse
          { urlparse L.data [] with
            scheme := (urlparse (base_url p).data []).scheme })) := by
  refine ⟨?_, base_url_of_baseTag, ?_, ?_⟩
  · intro B L hn
    unfold _make_absolute
    dsimp only
    rw [hn]
    simp only [List.isEmpty_nil, if_true]
    rfl
  · intro B B2 h L hne
    exact make_absolute_congr _ _ L
      ((base_url_of_baseTag B h hne).trans (base_url_of_baseTag B2 h hne).symm)
  · intro p L hn hs
    have hn2 : (urlparse L.data []).netloc.isEmpty = false := by
      cases he : (urlparse L.data []).netloc.isEmpty
      · rfl
      · exact absurd (List.isEmpty_iff.mp he) hn
    unfold _make_absolute
    dsimp only
    rw [hn2, hs]
    simp

/-- Witness for C4, exercising all three branches on the spec's own
examples and checking the concrete resolution values. -/
theorem make_absolute_resolution_witness :
    ((urlparse "test.html".data []).netloc = [] ∧
      _make_absolute ⟨"http://example.com/foo/bar.html", none⟩ "test.html" =
        urljoinS (specDirBase "http://example.com/foo/bar.html") "test.html") ∧
    _make_absolute ⟨"http://example.com/foo/bar.html", none⟩ "test.html" =
      "http://example.com/foo/test.html" ∧
    (chTrim " http://example.com/foo/ ".data ≠ [] ∧
      _make_absolute ⟨"http://a/", some " http://example.com/foo/ "⟩ "/test.html" =
        _make_absolute ⟨"http://b/x", some " http://example.com/foo/ "⟩ "/test.html") ∧
    _make_absolute ⟨"http://a/", some " http://example.com/foo/ "⟩ "/test.html" =
      "http://example.com/test.html" ∧
    _make_absolute ⟨"http://example.com/", none⟩ "//xkcd.com/about/" =
      "http://xkcd.com/about/" :=
  ⟨⟨by decide,
    make_absolute_resolution.1 "http://example.com/foo/bar.html" "test.html"
      (by decide)⟩,
   by decide,
   ⟨by decide,
    make_absolute_resolution.2.2.1 "http://a/" "http://b/x"
      " http://example.com/foo/ " "/test.html" (by decide)⟩,
   by decide,
   by decide⟩

end RequestsHTML
